import Mathlib

/-!
Verification of the pet CRUD service in `backend/pets/routes.py`.

The module's route handlers are embedded shallowly:
* the MongoDB collection handle `DB.pet` becomes an explicit `PetCollection`
  value threaded through each handler, with the driver operations
  (`find`, `find_one`, `insert_one`, `update_one`, `delete_one`,
  `count_documents`) modelled after their documented single-document
  semantics;
* `datetime.utcnow().isoformat()` timestamps are modelled as `Nat` instants
  passed in explicitly as `now` (fixed-width ISO-8601 UTC strings compare
  lexicographically in chronological order, so `Nat` with `≤` is a faithful
  model of both the instants and their string comparison);
* a handler that raises `HTTPException` (or lets a library exception escape,
  or falls through returning `None` where the framework demands a response
  model) is modelled as returning `Except HErr _`;
* the bson `ObjectId` string codec (external library) is modelled as an
  injective encoding `oidString : Nat → String` together with the partial
  inverse `parseOid`; the concrete 24-hex-character format is irrelevant to
  the handlers, which only rely on parse/print round-tripping and on some
  strings being rejected as malformed.  (The model writes decimal digits
  least-significant first; the digit order is unobservable.)
-/

namespace PetService

/-- Decimal digit to character (callers only pass values below 10). -/
def digitChar (d : Nat) : Char := Char.ofNat (48 + d)

/-- Character back to decimal digit; `none` on a non-digit. -/
def charDigit (c : Char) : Option Nat :=
  if '0' ≤ c ∧ c ≤ '9' then some (c.toNat - 48) else none

/-- Digits of `n`, least significant first (first argument is fuel so that the
recursion is structural and reduces inside the kernel). -/
def toDigitsAux : Nat → Nat → List Char
  | _, 0 => []
  | 0, _+1 => []
  | f+1, n+1 => digitChar ((n+1) % 10) :: toDigitsAux f ((n+1) / 10)

/-- Parse a least-significant-first digit string. -/
def parseLE : List Char → Option Nat
  | [] => some 0
  | c :: cs =>
    match charDigit c, parseLE cs with
    | some d, some m => some (d + 10 * m)
    | _, _ => none

/-- Models `str(ObjectId)`: the identifier's canonical string form. -/
def oidString (n : Nat) : String := if n = 0 then "0" else ⟨toDigitsAux n n⟩

/-- Models the `ObjectId(raw)` constructor of the bson library: succeeds
exactly on well-formed identifier strings, returning the native identifier. -/
def parseOid (s : String) : Option Nat :=
  match s.data with
  | [] => none
  | c :: cs => parseLE (c :: cs)

/-- Modelled from the spec: `PetKind` lives in `models.py`, which is not under
`src/`; §3 describes it as a closed enumerated category (species). -/
inductive PetKind where
  | dog
  | cat
deriving DecidableEq, Repr

/-- The enum member's `.value` string. -/
def PetKind.value : PetKind → String
  | .dog => "dog"
  | .cat => "cat"

/-- Modelled from the spec: `PetStatus` lives in `models.py`, which is not
under `src/`; §3 gives the lifecycle states available/pending/adopted. -/
inductive PetStatus where
  | available
  | pending
  | adopted
deriving DecidableEq, Repr

/-- The enum member's `.value` string. -/
def PetStatus.value : PetStatus → String
  | .available => "available"
  | .pending => "pending"
  | .adopted => "adopted"

/-- Modelled from the spec: `PetBase` (the request payload schema in
`models.py`, not under `src/`) carries the mutable descriptive fields only —
§3/§4.4: "all fields except identifier and timestamps" (name, kind, status). -/
structure PetBase where
  name : String
  kind : PetKind
  status : PetStatus
deriving DecidableEq, Repr

/-- A pet document as a Mongo dict: the optional `_id` key (absent on a
payload not yet inserted), the optional `id_` key (added by `fix_pet_id` /
the handlers, never stored), the payload fields, and the two timestamps. -/
structure PetDoc where
  oid : Option Nat
  id_ : Option String
  base : PetBase
  created_at : Nat
  last_modified : Nat
deriving DecidableEq, Repr

/-- The equality filter built by `get_all_pets`: at most a `kind` key and a
`status` key, each matching a `.value` string. -/
structure Filter where
  kind? : Option String
  status? : Option String
deriving DecidableEq, Repr

/-- MongoDB equality-filter semantics: a document matches iff every key
present in the filter equals the document's field. -/
def matchesFilter (f : Filter) (d : PetDoc) : Bool :=
  (match f.kind? with
   | some k => d.base.kind.value == k
   | none => true)
  &&
  (match f.status? with
   | some s => d.base.status.value == s
   | none => true)

/-- Result of the driver's `insert_one` (`inserted_id` is `None` only for
unacknowledged writes). -/
structure InsertOneResult where
  inserted_id : Option Nat
deriving DecidableEq, Repr

/-- Result of the driver's `update_one`. -/
structure UpdateResult where
  matched_count : Nat
  modified_count : Nat
deriving DecidableEq, Repr

/-- Result of the driver's `delete_one`. -/
structure DeleteResult where
  deleted_count : Nat
deriving DecidableEq, Repr

/-- The `DB.pet` collection: stored documents in insertion order plus the
store's supply of fresh identifiers. -/
structure PetCollection where
  docs : List PetDoc
  nextId : Nat
deriving DecidableEq, Repr

/-- The `{"_id": oid}` equality filter used by the by-id operations. -/
def oidMatches (oid : Nat) (d : PetDoc) : Bool := d.oid == some oid

/-- Driver `find_one({"_id": oid})`: the first stored document with that
identifier, if any. -/
def find_one (db : PetCollection) (oid : Nat) : Option PetDoc :=
  db.docs.find? (oidMatches oid)

/-- Driver `insert_one`: the store assigns a fresh identifier, appends the
document, and reports the generated identifier. -/
def insert_one (db : PetCollection) (doc : PetDoc) : InsertOneResult × PetCollection :=
  (⟨some db.nextId⟩,
   ⟨db.docs ++ [{ doc with oid := some db.nextId }], db.nextId + 1⟩)

/-- Driver `count_documents(filter)`: ignores skip/limit. -/
def count_documents (db : PetCollection) (f : Filter) : Nat :=
  (db.docs.filter (matchesFilter f)).length

/-- Insert a document into a list that is sorted by `created_at` descending. -/
def insertByCreated (d : PetDoc) : List PetDoc → List PetDoc
  | [] => [d]
  | e :: es =>
    if d.created_at ≤ e.created_at then e :: insertByCreated d es
    else d :: e :: es

/-- The server-side `sort("created_at", -1)`: most recent first. -/
def sortByCreatedDesc (l : List PetDoc) : List PetDoc :=
  l.foldr insertByCreated []

/-- Driver `find(filter).skip(skip).limit(limit).sort("created_at", -1)`:
the server applies sort, then skip, then limit, independent of the order the
cursor modifiers were chained in. -/
def findWith (db : PetCollection) (f : Filter) (skip limit : Nat) : List PetDoc :=
  ((sortByCreatedDesc (db.docs.filter (matchesFilter f))).drop skip).take limit

/-- The `{"$set": ...}` document built by `update_pet`: the payload fields
plus the re-stamped `last_modified` (`created_at` and `_id` are absent). -/
structure SetDoc where
  base : PetBase
  last_modified : Nat
deriving DecidableEq, Repr

/-- `$set` applied to one document: overwrites exactly the keys present in
the set document. -/
def applySet (d : PetDoc) (s : SetDoc) : PetDoc :=
  { d with base := s.base, last_modified := s.last_modified }

/-- `update_one` on the stored list: `$set` on the first document matching
the identifier.  Returns (matched_count, modified_count, new list); Mongo
counts a document as modified only if the write changed it. -/
def updateFirst (oid : Nat) (s : SetDoc) : List PetDoc → Nat × Nat × List PetDoc
  | [] => (0, 0, [])
  | d :: ds =>
    if oidMatches oid d then
      (1, if applySet d s = d then 0 else 1, applySet d s :: ds)
    else
      let r := updateFirst oid s ds
      (r.1, r.2.1, d :: r.2.2)

/-- Driver `update_one({"_id": oid}, {"$set": s})`. -/
def update_one (db : PetCollection) (oid : Nat) (s : SetDoc) :
    UpdateResult × PetCollection :=
  let r := updateFirst oid s db.docs
  (⟨r.1, r.2.1⟩, ⟨r.2.2, db.nextId⟩)

/-- `delete_one` on the stored list: remove the first document matching the
identifier, reporting how many (0 or 1) were deleted. -/
def deleteFirst (oid : Nat) : List PetDoc → Nat × List PetDoc
  | [] => (0, [])
  | d :: ds =>
    if oidMatches oid d then (1, ds)
    else
      let r := deleteFirst oid ds
      (r.1, d :: r.2)

/-- Driver `delete_one({"_id": oid})`. -/
def delete_one (db : PetCollection) (oid : Nat) : DeleteResult × PetCollection :=
  let r := deleteFirst oid db.docs
  (⟨r.1⟩, ⟨r.2, db.nextId⟩)

/-- The failure outcomes a handler can produce.  The first three are the
`HTTPException`s raised explicitly in `routes.py`; the rest model library
exceptions escaping a handler or a handler returning `None` where the route's
response model requires a document — the framework surfaces every one of
those as an internal server error. -/
inductive HErr where
  /-- `validate_object_id` caught a malformed identifier: HTTP 400. -/
  | invalidIdentifier
  /-- no document with the requested identifier: HTTP 404. -/
  | petNotFound
  /-- `update_pet` saw `modified_count == 0`: HTTP 304. -/
  | notModified
  /-- `add_pet` falls through returning `None` when `inserted_id` is absent;
  response validation against `PetOnDB` rejects `None` (internal error). -/
  | insertFailed
  /-- a `str(pet["_id"])` on a document without the key (KeyError). -/
  | keyError
  /-- the `ValueError` raised by `fix_pet_id`. -/
  | valueError
  /-- a bare `ObjectId(id_)` call raising on a malformed string. -/
  | bsonError
  /-- a handler fell through returning `None` against its response model. -/
  | noneResponse
deriving DecidableEq, Repr

/-- The HTTP status each failure is surfaced with. -/
def statusCode : HErr → Nat
  | .invalidIdentifier => 400
  | .petNotFound => 404
  | .notModified => 304
  | .insertFailed => 500
  | .keyError => 500
  | .valueError => 500
  | .bsonError => 500
  | .noneResponse => 500

/-- What the Python callers actually pass for `id_`: `add_pet` hands
`_get_pet_or_404` the native `ObjectId` returned by the store, every other
caller hands it the raw path string.  (`ObjectId(x)` is the identity when `x`
is already an `ObjectId`.) -/
inductive IdArg where
  | str (s : String)
  | oid (n : Nat)
deriving DecidableEq, Repr

/-- `validate_object_id`: parse the external identifier, turning a parse
failure into HTTP 400.  (The debug-mode warning log is a no-op here.) -/
def validate_object_id : IdArg → Except HErr Nat
  | .oid n => .ok n
  | .str s =>
    match parseOid s with
    | some n => .ok n
    | none => .error .invalidIdentifier

/-- `fix_pet_id`: expose `_id` as the string field `id_`; raises `ValueError`
when the document has no truthy `_id` (an `ObjectId` is always truthy). -/
def fix_pet_id (pet : PetDoc) : Except HErr PetDoc :=
  match pet.oid with
  | some n => .ok { pet with id_ := some (oidString n) }
  | none => .error .valueError

/-- `_get_pet_or_404`: validate the identifier, fetch, 404 when absent. -/
def _get_pet_or_404 (db : PetCollection) (id_ : IdArg) : Except HErr PetDoc :=
  match validate_object_id id_ with
  | .error e => .error e
  | .ok oid =>
    match find_one db oid with
    | some pet => fix_pet_id pet
    | none => .error .petNotFound

/-- The `PetsOut` response model: the page of pets plus the full count. -/
structure PetsOut where
  pets : List PetDoc
  count : Nat
deriving DecidableEq, Repr

/-- `pets_list = list(map(fix_pet_id, pets))`: forcing the lazy map raises at
the first document without `_id`. -/
def mapFix : List PetDoc → Except HErr (List PetDoc)
  | [] => .ok []
  | d :: ds =>
    match fix_pet_id d, mapFix ds with
    | .ok d', .ok ds' => .ok (d' :: ds')
    | .error e, _ => .error e
    | .ok _, .error e => .error e

/-- The `filter_db` construction in `get_all_pets`: `if status and kind /
elif status / elif kind / else` (an enum member is always truthy, a missing
query parameter is `None`). -/
def mkFilter (kind : Option PetKind) (status : Option PetStatus) : Filter :=
  match status, kind with
  | some s, some k => ⟨some k.value, some s.value⟩
  | some s, none => ⟨none, some s.value⟩
  | none, some k => ⟨some k.value, none⟩
  | none, none => ⟨none, none⟩

/-- `get_all_pets`: clamp `skip`/reset `limit`, build the filter, page
through the sorted matches (`to_list(length=limit)` caps the page again) and
count the full filtered set. -/
def get_all_pets (db : PetCollection) (kind : Option PetKind)
    (status : Option PetStatus) (limit : Int) (skip : Int) :
    Except HErr PetsOut :=
  let skip := if skip < 0 then 0 else skip
  let limit := if limit ≤ 0 then 10 else limit
  let filter_db := mkFilter kind status
  let pets := (findWith db filter_db skip.toNat limit.toNat).take limit.toNat
  match mapFix pets with
  | .ok pets_list => .ok ⟨pets_list, count_documents db filter_db⟩
  | .error e => .error e

/-- The tail of `add_pet` after `insert_one` returns: re-fetch and return the
created document when the store reported a generated identifier.  When it did
not (`inserted_id` falsy), the source falls through returning `None`, which
the framework rejects against the `PetOnDB` response model — the internal
`InsertFailed` outcome. -/
def add_pet_continue (db : PetCollection) (inserted_id : Option Nat) :
    Except HErr PetDoc :=
  match inserted_id with
  | some iid =>
    (match _get_pet_or_404 db (.oid iid) with
     | .ok p =>
       -- pet["id_"] = str(pet["_id"])
       (match p.oid with
        | some m => .ok { p with id_ := some (oidString m) }
        | none => .error .keyError)
     | .error e => .error e)
  | none => .error .insertFailed

/-- `add_pet`: stamp `created_at`/`last_modified` with the same `date_now`,
insert, and hand the insert result to `add_pet_continue`. -/
def add_pet (db : PetCollection) (pet : PetBase) (now : Nat) :
    Except HErr PetDoc × PetCollection :=
  let pet_data : PetDoc :=
    { oid := none, id_ := none, base := pet, created_at := now, last_modified := now }
  let r := insert_one db pet_data
  (add_pet_continue r.2 r.1.inserted_id, r.2)

/-- The body of `get_pet_by_id` (the route's `Depends(validate_object_id)`
has already produced the native identifier). -/
def get_pet_by_id (db : PetCollection) (id_ : Nat) : Except HErr PetDoc :=
  match find_one db id_ with
  | some pet =>
    (match pet.oid with
     | some n => .ok { pet with id_ := some (oidString n) }
     | none => .error .keyError)
  | none => .error .petNotFound

/-- The full `GET /{id_}` route: dependency `validate_object_id`, then the
handler body. -/
def get_pet_by_id_endpoint (db : PetCollection) (id_ : String) :
    Except HErr PetDoc :=
  match validate_object_id (.str id_) with
  | .ok oid => get_pet_by_id db oid
  | .error e => .error e

/-- The body of `delete_pet_by_id`: a bare `ObjectId(id_)` conversion, the
delete, and the status message; with `deleted_count` falsy the source falls
through returning `None` against the `dict` response model. -/
def delete_pet_by_id (db : PetCollection) (id_ : String) :
    Except HErr String × PetCollection :=
  match parseOid id_ with
  | none => (.error .bsonError, db)
  | some oid =>
    let r := delete_one db oid
    if r.1.deleted_count ≠ 0 then
      (.ok ("deleted count: " ++ toString r.1.deleted_count), r.2)
    else
      (.error .noneResponse, r.2)

/-- The full `DELETE /{id_}` route: dependency `_get_pet_or_404` (existence
check) runs before the handler body touches the store. -/
def delete_pet_by_id_endpoint (db : PetCollection) (id_ : String) :
    Except HErr String × PetCollection :=
  match _get_pet_or_404 db (.str id_) with
  | .ok _ => delete_pet_by_id db id_
  | .error e => (.error e, db)

/-- The body of `update_pet`: build the `$set` document from the payload with
`last_modified` re-stamped to `now`, apply it, and either re-fetch (some
document modified) or fail with HTTP 304 (`modified_count` falsy). -/
def update_pet (db : PetCollection) (id_ : String) (pet : PetBase) (now : Nat) :
    Except HErr PetDoc × PetCollection :=
  let pet_data : SetDoc := ⟨pet, now⟩
  match parseOid id_ with
  | none => (.error .bsonError, db)
  | some oid =>
    let r := update_one db oid pet_data
    if r.1.modified_count ≠ 0 then
      (match _get_pet_or_404 r.2 (.str id_) with
       | .ok p => (.ok p, r.2)
       | .error e => (.error e, r.2))
    else
      (.error .notModified, r.2)

/-- The full `PUT /{id_}` route: dependencies `validate_object_id` and
`_get_pet_or_404` run, in that order, before the handler body. -/
def update_pet_endpoint (db : PetCollection) (id_ : String) (pet : PetBase)
    (now : Nat) : Except HErr PetDoc × PetCollection :=
  match validate_object_id (.str id_) with
  | .error e => (.error e, db)
  | .ok _ =>
    match _get_pet_or_404 db (.str id_) with
    | .error e => (.error e, db)
    | .ok _ => update_pet db id_ pet now

/-- A stored document carries an identifier below the store's fresh supply. -/
def oidBelow (bound : Nat) (d : PetDoc) : Bool :=
  match d.oid with
  | some n => decide (n < bound)
  | none => false

/-- A well-formed store: every stored document carries a store-assigned
identifier below the fresh-identifier supply, and identifiers are unique. -/
def WF (db : PetCollection) : Prop :=
  (∀ d ∈ db.docs, oidBelow db.nextId d = true)
  ∧ db.docs.Pairwise (fun a b => a.oid ≠ b.oid)

instance instDecWF (db : PetCollection) : Decidable (WF db) := by
  unfold WF; infer_instance

/-- The sequences of mutating operations C9 quantifies over. -/
inductive Op where
  | create (pet : PetBase) (now : Nat)
  | update (id_ : String) (pet : PetBase) (now : Nat)
deriving DecidableEq, Repr

/-- The wall-clock instant an operation's handler reads. -/
def opTime : Op → Nat
  | .create _ now => now
  | .update _ _ now => now

/-- Run one operation against the store, keeping only the store state. -/
def runOp (db : PetCollection) : Op → PetCollection
  | .create pet now => (add_pet db pet now).2
  | .update id_ pet now => (update_pet_endpoint db id_ pet now).2

/-- Run a sequence of operations left to right. -/
def runOps (db : PetCollection) : List Op → PetCollection
  | [] => db
  | op :: ops => runOps (runOp db op) ops

/-- The timestamp invariant of §3: no document was last modified before it
was created. -/
def Invariant (db : PetCollection) : Prop :=
  ∀ d ∈ db.docs, d.created_at ≤ d.last_modified

instance instDecInvariant (db : PetCollection) : Decidable (Invariant db) := by
  unfold Invariant; infer_instance

/-- Every timestamp already in the store is at most `t`. -/
def StampsLe (db : PetCollection) (t : Nat) : Prop :=
  ∀ d ∈ db.docs, d.created_at ≤ t ∧ d.last_modified ≤ t

instance instDecStampsLe (db : PetCollection) (t : Nat) : Decidable (StampsLe db t) := by
  unfold StampsLe; infer_instance

instance instDecEqExcept {ε α : Type} [DecidableEq ε] [DecidableEq α] :
    DecidableEq (Except ε α)
  | .ok a, .ok b =>
    if h : a = b then .isTrue (by rw [h])
    else .isFalse (by intro hc; cases hc; exact h rfl)
  | .error a, .error b =>
    if h : a = b then .isTrue (by rw [h])
    else .isFalse (by intro hc; cases hc; exact h rfl)
  | .ok _, .error _ => .isFalse (by intro hc; cases hc)
  | .error _, .ok _ => .isFalse (by intro hc; cases hc)

/-- The UTC clock read by consecutive operations never runs backwards,
starting from an instant `t` bounding the store's existing stamps. -/
def clockValid : Nat → List Op → Bool
  | _, [] => true
  | t, op :: ops => decide (t ≤ opTime op) && clockValid (opTime op) ops

/-! ### Helper lemmas -/

theorem charDigit_digitChar (d : Nat) (h : d < 10) : charDigit (digitChar d) = some d := by
  interval_cases d <;> decide

theorem parseLE_toDigitsAux : ∀ f n, n ≤ f → parseLE (toDigitsAux f n) = some n := by
  intro f
  induction f with
  | zero => intro n hn; interval_cases n; rfl
  | succ f ih =>
    intro n hn
    match n with
    | 0 => rfl
    | m+1 =>
      rw [toDigitsAux]
      simp only [parseLE, charDigit_digitChar _ (Nat.mod_lt _ (by omega)),
        ih ((m+1) / 10) (by omega)]
      congr 1
      omega

theorem toDigitsAux_ne_nil (n : Nat) (h : 0 < n) : toDigitsAux n n ≠ [] := by
  match n, h with
  | m+1, _ => rw [toDigitsAux]; simp

/-- The identifier codec round-trips: the string form of a native identifier
parses back to that identifier. -/
theorem parseOid_oidString (n : Nat) : parseOid (oidString n) = some n := by
  unfold oidString
  split
  · subst n; rfl
  · rename_i h
    unfold parseOid
    have hne := toDigitsAux_ne_nil n (by omega)
    match hd : toDigitsAux n n, hne with
    | c :: cs, _ =>
      show parseLE (c :: cs) = some n
      rw [← hd]
      exact parseLE_toDigitsAux n n (le_refl n)

theorem find?_append_of_none {α : Type} (p : α → Bool) (xs ys : List α)
    (h : xs.find? p = none) : (xs ++ ys).find? p = ys.find? p := by
  induction xs with
  | nil => rfl
  | cons a l ihl =>
    rw [List.cons_append, List.find?_cons]
    cases hpa : p a with
    | true => rw [List.find?_cons, hpa] at h; exact absurd h (by simp)
    | false =>
      rw [List.find?_cons, hpa] at h
      exact ihl h

theorem applySet_oid (d : PetDoc) (s : SetDoc) : (applySet d s).oid = d.oid := rfl

theorem oid_of_oidMatches {oid : Nat} {d : PetDoc} (h : oidMatches oid d = true) :
    d.oid = some oid := by
  simpa [oidMatches] using h

theorem oid_of_find_one {db : PetCollection} {oid : Nat} {d : PetDoc}
    (h : find_one db oid = some d) : d.oid = some oid :=
  oid_of_oidMatches (List.find?_some h)

theorem updateFirst_spec (oid : Nat) (s : SetDoc) :
    ∀ docs d, docs.find? (oidMatches oid) = some d →
      (updateFirst oid s docs).1 = 1 ∧
      (updateFirst oid s docs).2.1 = (if applySet d s = d then 0 else 1) ∧
      (updateFirst oid s docs).2.2.find? (oidMatches oid) = some (applySet d s) := by
  intro docs
  induction docs with
  | nil => intro d h; simp at h
  | cons e es ih =>
    intro d h
    rw [List.find?_cons] at h
    cases he : oidMatches oid e with
    | true =>
      rw [he] at h
      injection h with h
      subst h
      refine ⟨by simp [updateFirst, he], by simp [updateFirst, he], ?_⟩
      simp only [updateFirst, he, if_true]
      rw [List.find?_cons]
      have : oidMatches oid (applySet e s) = true := by
        simpa [oidMatches, applySet] using oid_of_oidMatches he
      rw [this]
    | false =>
      rw [he] at h
      obtain ⟨h1, h2, h3⟩ := ih d h
      refine ⟨by simpa [updateFirst, he] using h1, by simpa [updateFirst, he] using h2, ?_⟩
      simp only [updateFirst, he, Bool.false_eq_true, if_false]
      rw [List.find?_cons, he]
      exact h3

theorem mem_updateFirst (oid : Nat) (s : SetDoc) :
    ∀ docs x, x ∈ (updateFirst oid s docs).2.2 →
      x ∈ docs ∨ ∃ d, d ∈ docs ∧ x = applySet d s := by
  intro docs
  induction docs with
  | nil => intro x hx; simp [updateFirst] at hx
  | cons e es ih =>
    intro x hx
    by_cases he : oidMatches oid e = true
    · simp only [updateFirst, he, if_true, List.mem_cons] at hx
      rcases hx with hx | hx
      · exact Or.inr ⟨e, List.mem_cons_self e es, hx⟩
      · exact Or.inl (List.mem_cons_of_mem e hx)
    · simp only [updateFirst, he, Bool.false_eq_true, if_false, List.mem_cons] at hx
      rcases hx with hx | hx
      · exact Or.inl (by simp [hx])
      · rcases ih x hx with h | ⟨d, hd, hds⟩
        · exact Or.inl (List.mem_cons_of_mem e h)
        · exact Or.inr ⟨d, List.mem_cons_of_mem e hd, hds⟩

theorem deleteFirst_of_find?_some (oid : Nat) :
    ∀ docs d, docs.find? (oidMatches oid) = some d →
      (deleteFirst oid docs).1 = 1 ∧
      (docs.Pairwise (fun a b => a.oid ≠ b.oid) →
        (deleteFirst oid docs).2.find? (oidMatches oid) = none) := by
  intro docs
  induction docs with
  | nil => intro d h; simp at h
  | cons e es ih =>
    intro d h
    rw [List.find?_cons] at h
    cases he : oidMatches oid e with
    | true =>
      rw [he] at h
      refine ⟨by simp [deleteFirst, he], ?_⟩
      intro hpw
      simp only [deleteFirst, he, if_true]
      rw [List.find?_eq_none]
      intro x hx hmx
      have hex := (List.pairwise_cons.mp hpw).1 x hx
      exact hex (by rw [oid_of_oidMatches he, oid_of_oidMatches hmx])
    | false =>
      rw [he] at h
      obtain ⟨h1, h2⟩ := ih d h
      refine ⟨by simpa [deleteFirst, he] using h1, ?_⟩
      intro hpw
      simp only [deleteFirst, he, Bool.false_eq_true, if_false]
      rw [List.find?_cons, he]
      exact h2 (List.pairwise_cons.mp hpw).2

theorem mapFix_length : ∀ l r, mapFix l = .ok r → r.length = l.length := by
  intro l
  induction l with
  | nil => intro r h; cases h; rfl
  | cons d ds ih =>
    intro r h
    unfold mapFix at h
    cases hf : fix_pet_id d with
    | error e => rw [hf] at h; cases h
    | ok d' =>
      rw [hf] at h
      cases hm : mapFix ds with
      | error e => rw [hm] at h; cases h
      | ok ds' =>
        rw [hm] at h
        cases h
        simp [ih ds' hm]

theorem find_one_insert (db : PetCollection) (doc : PetDoc)
    (h : ∀ d ∈ db.docs, oidBelow db.nextId d = true) :
    find_one (insert_one db doc).2 db.nextId = some { doc with oid := some db.nextId } := by
  have hnone : db.docs.find? (oidMatches db.nextId) = none := by
    rw [List.find?_eq_none]
    intro d hd hm
    have hb := h d hd
    unfold oidBelow at hb
    rw [oid_of_oidMatches hm] at hb
    simp at hb
  show ((db.docs ++ [{ doc with oid := some db.nextId }]).find? (oidMatches db.nextId)) = _
  rw [find?_append_of_none _ _ _ hnone]
  simp [List.find?_cons, oidMatches]

/-! ### Example values used by witnesses -/

def exPet : PetBase := ⟨"Rex", .dog, .available⟩

def exPet2 : PetBase := ⟨"Tom", .cat, .pending⟩

def exDoc : PetDoc := ⟨some 0, none, exPet, 0, 0⟩

def exDb : PetCollection := ⟨[exDoc], 1⟩

def exDb3 : PetCollection :=
  ⟨[⟨some 0, none, exPet, 3, 4⟩, ⟨some 1, none, exPet2, 5, 6⟩,
    ⟨some 2, none, exPet, 1, 2⟩], 3⟩

/-! ### The claims -/

/-- C3: for every create request, if the store does not report a generated
identifier for the inserted document, the create operation fails with the
`InsertFailed` error, surfaced as an internal (HTTP 500) error. -/
theorem insert_without_id_fails (db : PetCollection) :
    add_pet_continue db none = .error .insertFailed
    ∧ statusCode .insertFailed = 500 :=
  ⟨rfl, rfl⟩

/-- C6: `list` with a negative `skip` returns the same result as with
`skip = 0`, and with `limit ≤ 0` the same result as with `limit = 10`. -/
theorem list_normalizes_skip_and_limit (db : PetCollection) (kind : Option PetKind)
    (status : Option PetStatus) (limit skip : Int) :
    (skip < 0 → get_all_pets db kind status limit skip = get_all_pets db kind status limit 0)
    ∧ (limit ≤ 0 → get_all_pets db kind status limit skip = get_all_pets db kind status 10 skip) := by
  constructor
  · intro h
    simp [get_all_pets, h]
  · intro h
    simp [get_all_pets, h]

theorem list_normalizes_skip_and_limit_witness :
    get_all_pets exDb3 none none 10 (-1) = get_all_pets exDb3 none none 10 0
    ∧ get_all_pets exDb3 none none (-3) 2 = get_all_pets exDb3 none none 10 2 :=
  ⟨(list_normalizes_skip_and_limit exDb3 none none 10 (-1)).1 (by decide),
   (list_normalizes_skip_and_limit exDb3 none none (-3) 2).2 (by decide)⟩

/-- C7: the query filter built by `get_all_pets` contains exactly the keys
whose inputs were supplied — empty when neither is supplied, status-only,
kind-only, or both. -/
theorem filter_has_exactly_supplied_keys (kind : Option PetKind) (status : Option PetStatus) :
    (mkFilter kind status).kind? = kind.map PetKind.value
    ∧ (mkFilter kind status).status? = status.map PetStatus.value := by
  cases kind <;> cases status <;> simp [mkFilter]

/-- C10: on a document whose `_id` key is present (an `ObjectId` value is
always truthy), `fix_pet_id` returns the same document with exactly the one
field `id_` set to the string form of `_id` and every other field unchanged;
on a document without `_id` it raises (`ValueError`) instead of returning. -/
theorem fix_pet_id_adds_exactly_id (pet : PetDoc) :
    (∀ n, pet.oid = some n → fix_pet_id pet = .ok { pet with id_ := some (oidString n) })
    ∧ (pet.oid = none → fix_pet_id pet = .error .valueError) := by
  constructor
  · intro n h
    simp [fix_pet_id, h]
  · intro h
    simp [fix_pet_id, h]

theorem fix_pet_id_adds_exactly_id_witness :
    fix_pet_id ⟨some 7, none, ⟨"Rex", .dog, .available⟩, 1, 2⟩
      = .ok ⟨some 7, some "7", ⟨"Rex", .dog, .available⟩, 1, 2⟩
    ∧ fix_pet_id ⟨none, some "x", ⟨"Tom", .cat, .pending⟩, 1, 2⟩ = .error .valueError :=
  ⟨((fix_pet_id_adds_exactly_id ⟨some 7, none, ⟨"Rex", .dog, .available⟩, 1, 2⟩).1 7 rfl).trans
      (by decide),
   (fix_pet_id_adds_exactly_id ⟨none, some "x", ⟨"Tom", .cat, .pending⟩, 1, 2⟩).2 rfl⟩

/-- C4: `update` on a raw identifier string that parses but matches no stored
document yields `PetNotFound` with the store unchanged — the `_get_pet_or_404`
dependency fails before any write is attempted, so no document's
`last_modified` is touched. -/
theorem update_nonexistent_not_found (db : PetCollection) (raw : String) (oid : Nat)
    (pet : PetBase) (now : Nat)
    (hparse : parseOid raw = some oid) (habsent : find_one db oid = none) :
    update_pet_endpoint db raw pet now = (.error .petNotFound, db) := by
  simp [update_pet_endpoint, validate_object_id, hparse, _get_pet_or_404, habsent]

theorem update_nonexistent_not_found_witness :
    update_pet_endpoint exDb "1" exPet2 5 = (.error .petNotFound, exDb) :=
  update_nonexistent_not_found exDb "1" 1 exPet2 5 (by decide) (by decide)

/-- C5: a successful `list` returns at most `limit` documents (after
normalization of `limit`), and the returned `count` is the number of stored
documents matching the filter, independent of `skip` and `limit`. -/
theorem list_page_size_and_count (db : PetCollection) (kind : Option PetKind)
    (status : Option PetStatus) (limit skip : Int) (out : PetsOut)
    (h : get_all_pets db kind status limit skip = .ok out) :
    out.pets.length ≤ (if limit ≤ 0 then (10:Int) else limit).toNat
    ∧ out.count = (db.docs.filter (matchesFilter (mkFilter kind status))).length := by
  simp only [get_all_pets] at h
  split at h
  · rename_i pets_list heq
    injection h with h
    subst h
    constructor
    · show pets_list.length ≤ _
      rw [mapFix_length _ _ heq]
      exact List.length_take_le _ _
    · rfl
  · cases h

theorem list_page_size_and_count_witness :
    (PetsOut.mk [⟨some 1, some "1", exPet2, 5, 6⟩, ⟨some 0, some "0", exPet, 3, 4⟩,
        ⟨some 2, some "2", exPet, 1, 2⟩] 3).pets.length
      ≤ (if (10:Int) ≤ 0 then (10:Int) else 10).toNat
    ∧ (PetsOut.mk [⟨some 1, some "1", exPet2, 5, 6⟩, ⟨some 0, some "0", exPet, 3, 4⟩,
        ⟨some 2, some "2", exPet, 1, 2⟩] 3).count
      = (exDb3.docs.filter (matchesFilter (mkFilter none none))).length :=
  list_page_size_and_count exDb3 none none 10 0 _ (by decide)

/-- C1: on a well-formed store, `create` succeeds with a document whose
payload fields equal the input and whose `created_at` and `last_modified`
both carry the same stamped current time, and `get` with the identifier
returned by `create` yields that same document. -/
theorem create_then_get_roundtrip (db : PetCollection) (pet : PetBase) (now : Nat)
    (hwf : WF db) :
    ∃ created : PetDoc,
      (add_pet db pet now).1 = .ok created
      ∧ created.base = pet
      ∧ created.created_at = now
      ∧ created.last_modified = now
      ∧ ∃ raw, created.id_ = some raw
        ∧ get_pet_by_id_endpoint (add_pet db pet now).2 raw = .ok created := by
  have hfind : find_one ⟨db.docs ++ [⟨some db.nextId, none, pet, now, now⟩], db.nextId + 1⟩
      db.nextId = some ⟨some db.nextId, none, pet, now, now⟩ :=
    find_one_insert db ⟨none, none, pet, now, now⟩ hwf.1
  refine ⟨⟨some db.nextId, some (oidString db.nextId), pet, now, now⟩, ?_, rfl, rfl, rfl,
    oidString db.nextId, rfl, ?_⟩
  · show add_pet_continue ⟨db.docs ++ [⟨some db.nextId, none, pet, now, now⟩], db.nextId + 1⟩
      (some db.nextId) = _
    simp [add_pet_continue, _get_pet_or_404, validate_object_id, hfind, fix_pet_id]
  · show get_pet_by_id_endpoint ⟨db.docs ++ [⟨some db.nextId, none, pet, now, now⟩],
      db.nextId + 1⟩ (oidString db.nextId) = _
    simp [get_pet_by_id_endpoint, validate_object_id, parseOid_oidString, get_pet_by_id, hfind]

theorem create_then_get_roundtrip_witness :
    ∃ created : PetDoc,
      (add_pet ⟨[], 0⟩ exPet 7).1 = .ok created
      ∧ created.base = exPet
      ∧ created.created_at = 7
      ∧ created.last_modified = 7
      ∧ ∃ raw, created.id_ = some raw
        ∧ get_pet_by_id_endpoint (add_pet ⟨[], 0⟩ exPet 7).2 raw = .ok created :=
  create_then_get_roundtrip ⟨[], 0⟩ exPet 7 (by decide)

/-- C2 (counterexample): a store holds one document whose payload fields
equal the submitted payload `exPet`, but because `update_pet` re-stamps
`last_modified` into the `$set` document before writing, an update at an
instant later than the stored `last_modified` modifies the document and
returns it with HTTP 200 — not the `NotModified` (HTTP 304) error the claim
requires for every identical payload. -/
theorem update_identical_counterexample :
    (⟨some 0, none, exPet, 0, 0⟩ : PetDoc).base = exPet
    ∧ find_one ⟨[⟨some 0, none, exPet, 0, 0⟩], 1⟩ 0 = some ⟨some 0, none, exPet, 0, 0⟩
    ∧ (update_pet_endpoint ⟨[⟨some 0, none, exPet, 0, 0⟩], 1⟩ "0" exPet 1).1
        = .ok ⟨some 0, some "0", exPet, 0, 1⟩
    ∧ (update_pet_endpoint ⟨[⟨some 0, none, exPet, 0, 0⟩], 1⟩ "0" exPet 1).1
        ≠ .error .notModified := by
  decide

/-- C2 (amended): for a stored document, `update` with a payload whose fields
are identical to the stored fields yields `NotModified` exactly when the
freshly stamped current time equals the stored `last_modified` (i.e. exactly
when the store reports zero documents modified); at any later stamp the
update succeeds instead. -/
theorem update_identical_not_modified_iff (db : PetCollection) (raw : String)
    (oid : Nat) (d : PetDoc) (pet : PetBase) (now : Nat)
    (hparse : parseOid raw = some oid)
    (hfind : find_one db oid = some d)
    (hbase : d.base = pet) :
    (update_pet_endpoint db raw pet now).1 = .error .notModified
      ↔ now = d.last_modified := by
  have hdoid : d.oid = some oid := oid_of_find_one hfind
  have hval : validate_object_id (.str raw) = .ok oid := by
    simp [validate_object_id, hparse]
  have hdep : _get_pet_or_404 db (.str raw) = .ok { d with id_ := some (oidString oid) } := by
    simp [_get_pet_or_404, hval, hfind, fix_pet_id, hdoid]
  obtain ⟨hm1, hm2, hm3⟩ := updateFirst_spec oid ⟨pet, now⟩ db.docs d hfind
  have happ : applySet d ⟨pet, now⟩ = d ↔ now = d.last_modified := by
    cases d with
    | mk o i b c l =>
      simp only [PetBase.mk.injEq] at hbase
      simp [applySet, PetDoc.mk.injEq, hbase]
  simp only [update_pet_endpoint, hval, hdep, update_pet, hparse]
  by_cases heq : applySet d ⟨pet, now⟩ = d
  · have hm2' : (updateFirst oid ⟨pet, now⟩ db.docs).2.1 = 0 := by
      rw [hm2, if_pos heq]
    refine iff_of_true ?_ (happ.mp heq)
    simp [update_one, hm2']
  · have hm2' : (updateFirst oid ⟨pet, now⟩ db.docs).2.1 = 1 := by
      rw [hm2, if_neg heq]
    have hfind2 : find_one ⟨(updateFirst oid ⟨pet, now⟩ db.docs).2.2, db.nextId⟩ oid
        = some (applySet d ⟨pet, now⟩) := hm3
    have hdoid2 : (applySet d ⟨pet, now⟩).oid = some oid := by
      rw [applySet_oid, hdoid]
    have hdep2 : _get_pet_or_404 ⟨(updateFirst oid ⟨pet, now⟩ db.docs).2.2, db.nextId⟩
        (.str raw) = .ok { applySet d ⟨pet, now⟩ with id_ := some (oidString oid) } := by
      simp [_get_pet_or_404, hval, hfind2, fix_pet_id, hdoid2]
    refine iff_of_false ?_ (fun hlm => heq (happ.mpr hlm))
    simp [update_one, hm2', hdep2]

theorem update_identical_not_modified_iff_witness :
    (update_pet_endpoint exDb "0" exPet 0).1 = .error .notModified :=
  (update_identical_not_modified_iff exDb "0" 0 exDoc exPet 0
    (by decide) (by decide) (by decide)).mpr rfl

/-- C8: on a well-formed store, deleting a stored document and then getting
the same identifier yields `PetNotFound`; and when no document has the given
identifier, `delete` itself fails with `PetNotFound` (the existence check
runs before the deletion, so the store is untouched). -/
theorem delete_then_get_not_found (db : PetCollection) (raw : String) (oid : Nat)
    (hwf : WF db) (hparse : parseOid raw = some oid) :
    (∀ d, find_one db oid = some d →
      (delete_pet_by_id_endpoint db raw).1 = .ok "deleted count: 1"
      ∧ get_pet_by_id_endpoint (delete_pet_by_id_endpoint db raw).2 raw
          = .error .petNotFound)
    ∧ (find_one db oid = none →
      delete_pet_by_id_endpoint db raw = (.error .petNotFound, db)) := by
  have hval : validate_object_id (.str raw) = .ok oid := by
    simp [validate_object_id, hparse]
  constructor
  · intro d hd
    have hdoid : d.oid = some oid := oid_of_find_one hd
    have hdep : _get_pet_or_404 db (.str raw) = .ok { d with id_ := some (oidString oid) } := by
      simp [_get_pet_or_404, hval, hd, fix_pet_id, hdoid]
    obtain ⟨hcount, hafter⟩ := deleteFirst_of_find?_some oid db.docs d hd
    have hafter' := hafter hwf.2
    constructor
    · simp [delete_pet_by_id_endpoint, hdep, delete_pet_by_id, hparse, delete_one, hcount]
      decide
    · have hsnd : (delete_pet_by_id_endpoint db raw).2
          = ⟨(deleteFirst oid db.docs).2, db.nextId⟩ := by
        simp [delete_pet_by_id_endpoint, hdep, delete_pet_by_id, hparse, delete_one, hcount]
      rw [hsnd]
      have hnone : find_one ⟨(deleteFirst oid db.docs).2, db.nextId⟩ oid = none := hafter'
      simp [get_pet_by_id_endpoint, hval, get_pet_by_id, hnone]
  · intro hnone
    have hdep : _get_pet_or_404 db (.str raw) = .error .petNotFound := by
      simp [_get_pet_or_404, hval, hnone]
    simp [delete_pet_by_id_endpoint, hdep]

theorem delete_then_get_not_found_witness :
    ((delete_pet_by_id_endpoint exDb "0").1 = .ok "deleted count: 1"
      ∧ get_pet_by_id_endpoint (delete_pet_by_id_endpoint exDb "0").2 "0"
          = .error .petNotFound)
    ∧ delete_pet_by_id_endpoint exDb "1" = (.error .petNotFound, exDb) :=
  ⟨(delete_then_get_not_found exDb "0" 0 (by decide) (by decide)).1 exDoc (by decide),
   (delete_then_get_not_found exDb "1" 1 (by decide) (by decide)).2 (by decide)⟩

theorem stampsLe_mono {db : PetCollection} {t t' : Nat}
    (h : StampsLe db t) (htt : t ≤ t') : StampsLe db t' :=
  fun d hd => ⟨le_trans (h d hd).1 htt, le_trans (h d hd).2 htt⟩

theorem update_pet_snd (db : PetCollection) (id_ : String) (pet : PetBase) (now : Nat) :
    (update_pet db id_ pet now).2 = db
    ∨ ∃ oid, (update_pet db id_ pet now).2
        = ⟨(updateFirst oid ⟨pet, now⟩ db.docs).2.2, db.nextId⟩ := by
  unfold update_pet
  cases hp : parseOid id_ with
  | none => exact Or.inl rfl
  | some oid =>
    refine Or.inr ⟨oid, ?_⟩
    simp only [update_one]
    split
    · split <;> rfl
    · rfl

theorem update_pet_endpoint_snd (db : PetCollection) (id_ : String) (pet : PetBase)
    (now : Nat) :
    (update_pet_endpoint db id_ pet now).2 = db
    ∨ (update_pet_endpoint db id_ pet now).2 = (update_pet db id_ pet now).2 := by
  unfold update_pet_endpoint
  split
  · exact Or.inl rfl
  · split
    · exact Or.inl rfl
    · exact Or.inr rfl

theorem runOp_preserves (db : PetCollection) (op : Op)
    (hinv : Invariant db) (hst : StampsLe db (opTime op)) :
    Invariant (runOp db op) ∧ StampsLe (runOp db op) (opTime op) := by
  cases op with
  | create pet now =>
    constructor
    · intro d hd
      rcases List.mem_append.mp hd with hd | hd
      · exact hinv d hd
      · rcases List.mem_singleton.mp hd with rfl
        exact le_refl now
    · intro d hd
      rcases List.mem_append.mp hd with hd | hd
      · exact hst d hd
      · rcases List.mem_singleton.mp hd with rfl
        exact ⟨le_refl now, le_refl now⟩
  | update id_ pet now =>
    show Invariant (update_pet_endpoint db id_ pet now).2
      ∧ StampsLe (update_pet_endpoint db id_ pet now).2 now
    rcases update_pet_endpoint_snd db id_ pet now with hsnd | hsnd
    · rw [hsnd]; exact ⟨hinv, hst⟩
    · rw [hsnd]
      rcases update_pet_snd db id_ pet now with hsnd2 | ⟨oid, hsnd2⟩
      · rw [hsnd2]; exact ⟨hinv, hst⟩
      · rw [hsnd2]
        constructor
        · intro d hd
          rcases mem_updateFirst oid ⟨pet, now⟩ db.docs d hd with hd | ⟨e, he, rfl⟩
          · exact hinv d hd
          · show e.created_at ≤ now
            exact (hst e he).1
        · intro d hd
          rcases mem_updateFirst oid ⟨pet, now⟩ db.docs d hd with hd | ⟨e, he, rfl⟩
          · exact hst d hd
          · exact ⟨(hst e he).1, le_refl now⟩

/-- C9: after any sequence of create and update operations driven by a clock
that never runs backwards, every stored document satisfies
`created_at ≤ last_modified` — create stamps both fields with the same value
and update re-stamps only `last_modified`, with a later-or-equal time. -/
theorem created_at_le_last_modified (db : PetCollection) (t : Nat) (ops : List Op)
    (hinv : Invariant db) (hst : StampsLe db t) (hclock : clockValid t ops = true) :
    Invariant (runOps db ops) := by
  induction ops generalizing db t with
  | nil => exact hinv
  | cons op ops ih =>
    simp only [clockValid, Bool.and_eq_true, decide_eq_true_eq] at hclock
    obtain ⟨hle, hrest⟩ := hclock
    have h := runOp_preserves db op hinv (stampsLe_mono hst hle)
    exact ih (runOp db op) (opTime op) h.1 h.2 hrest

theorem created_at_le_last_modified_witness :
    Invariant (runOps ⟨[], 0⟩ [.create exPet 1, .update "0" exPet2 3]) :=
  created_at_le_last_modified ⟨[], 0⟩ 0 [.create exPet 1, .update "0" exPet2 3]
    (by decide) (by decide) (by decide)

end PetService
